import Mathlib

/-!
Shallow embedding of `src/summarizer.py` (daily-scoop-ai-api).

The embedding models, faithfully to the source:
  * `calculate_summary_length` (lines 190-194), including the IEEE-754
    double-precision semantics of Python's `text_length * 0.35` and
    `target_length * 0.6` followed by `int(...)` truncation;
  * `split_text_into_chunks` (lines 137-188): the sentence split via
    `str.replace`/`split("\n")` and the greedy token-bounded packing loop;
  * `process_chunk` (lines 196-254): the per-attempt inference call with
    its empty-summary check and the retry loop that retries only
    `TimeoutError`/`RuntimeError` with delays 10, 20 (doubling);
  * `initialize_summarizer` (lines 51-135): the model-load retry loop
    (3 attempts, delays 5, 10) over the `summarizer`-is-`None` guard;
  * the aggregation tail of `summarize_text` (lines 256-302);
  * the `model_lock` discipline of `process_chunk` (lines 221-237) as a
    small transition system over thread program counters.

External effects (the HuggingFace pipeline, thread scheduling, stderr
logging) are represented by oracle functions; `time.sleep` calls are
recorded as a trace of requested delays.
-/

namespace Summarizer

/-! ### Python string primitives over `List Char`

Python `str.strip()` removes leading/trailing whitespace; for the ASCII
range this is the set below (the repo only feeds ASCII control text to
`strip`).  `str.replace` substitutes every non-overlapping occurrence
left to right; `split` cuts at every separator occurrence. -/

def isSpace (c : Char) : Bool :=
  c = ' ' || c = '\t' || c = '\n' || c = '\r' || c = '\x0b' || c = '\x0c'

/-- Python `str.strip()`. -/
def strTrim (s : List Char) : List Char :=
  ((s.dropWhile isSpace).reverse.dropWhile isSpace).reverse

/-- `strip` on packed strings (used for summary texts). -/
def strTrimS (s : String) : String :=
  ⟨strTrim s.data⟩

/-- One step of Python `str.replace`: if `pat` is a prefix of `s`,
consume it and emit `rep`; fuel bounds the recursion by `s.length`. -/
def replaceAllFuel (pat rep : List Char) : ℕ → List Char → List Char
  | 0, s => s
  | _ + 1, [] => []
  | fuel + 1, c :: rest =>
    if pat ≠ [] ∧ pat.isPrefixOf (c :: rest) then
      rep ++ replaceAllFuel pat rep fuel ((c :: rest).drop pat.length)
    else
      c :: replaceAllFuel pat rep fuel rest

/-- Python `s.replace(pat, rep)` (for nonempty `pat`). -/
def replaceAll (pat rep s : List Char) : List Char :=
  replaceAllFuel pat rep s.length s

/-- Python `s.split(sep)` for a single-character separator. -/
def splitOnChar (sep : Char) (s : List Char) : List (List Char) :=
  s.foldr (fun c acc =>
    match acc with
    | [] => [[c]]
    | cur :: rest => if c = sep then [] :: (cur :: rest) else (c :: cur) :: rest)
    [[]]

/-- Python `" ".join` / `"; ".join`. -/
def joinWith (sep : String) : List String → String
  | [] => ""
  | s :: rest => s ++ (rest.map (fun r => sep ++ r)).foldl (fun a b => a ++ b) ""

/-! ### IEEE-754 double model for the length planner

`text_length * 0.35` in Python multiplies the double nearest to the
integer by the double nearest to `0.35`, rounding the product to 53
significant bits (round-to-nearest, ties to even); `int(...)` then
truncates toward zero.  The nearest double to `0.35` is
`6305039478318694 / 2^54` and the nearest double to `0.6` is
`5404319552844595 / 2^53`. -/

/-- Round `n / 2^s` to the nearest integer, ties to even. -/
def rne (n s : ℕ) : ℕ :=
  if s = 0 then n
  else
    let q := n / 2 ^ s
    let r := n % 2 ^ s
    let h := 2 ^ (s - 1)
    if h < r then q + 1 else if r < h then q else if q % 2 = 0 then q else q + 1

/-- Number of bits of `n` (structural recursion on a fuel argument so
that the kernel can evaluate it; `fuel ≥ log2 n` suffices). -/
def bitLenFuel : ℕ → ℕ → ℕ
  | 0, _ => 0
  | fuel + 1, n => if n = 0 then 0 else bitLenFuel fuel (n / 2) + 1

def bitLen (n : ℕ) : ℕ :=
  bitLenFuel n n

/-- Round a natural `N` to 53 significant bits: the result `(M, sh)`
denotes `M * 2^sh` with `M < 2^53` (or `N` itself when it already fits). -/
def flRound (N : ℕ) : ℕ × ℕ :=
  if bitLen N ≤ 53 then (N, 0) else (rne N (bitLen N - 53), bitLen N - 53)

/-- Python `int(L * 0.35)` for a nonnegative integer `L`. -/
def pyInt35 (L : ℕ) : ℕ :=
  let Lf := flRound L
  let p := flRound (Lf.1 * 2 ^ Lf.2 * 6305039478318694)
  p.1 * 2 ^ p.2 / 2 ^ 54

/-- Python `int(t * 0.6)` for a nonnegative integer `t`. -/
def pyNat60 (t : ℕ) : ℕ :=
  let p := flRound (t * 5404319552844595)
  p.1 * 2 ^ p.2 / 2 ^ 53

/-- Python `int(t * 0.6)` for any integer `t` (`int` truncates toward 0). -/
def pyInt60 (t : ℤ) : ℤ :=
  if 0 ≤ t then (pyNat60 t.toNat : ℤ) else -(pyNat60 t.natAbs : ℤ)

/-- `calculate_summary_length` (summarizer.py lines 190-194):
`target_length = min(text_length - 1, max(30, min(250, int(text_length * 0.35))))`,
`min_length = max(20, int(target_length * 0.6))`. -/
def calculate_summary_length (L : ℕ) : ℤ × ℤ :=
  let target : ℤ := min ((L : ℤ) - 1) (max 30 (min 250 (pyInt35 L : ℤ)))
  (target, max 20 (pyInt60 target))

/-- `clamp(x, lo, hi)` as used by the spec's length-planner formula. -/
def clampI (x lo hi : ℤ) : ℤ :=
  max lo (min hi x)

/-- The length planner exactly as the spec's words state it
(`target = clamp(round(L * 0.35), 30, 250)` capped at `L - 1`;
`min = max(20, round(target * 0.6))`), with exact rational arithmetic
and `round` denoting round-half-up. -/
def plan_spec (L : ℕ) : ℤ × ℤ :=
  let target : ℤ := min ((L : ℤ) - 1) (clampI (round ((L : ℚ) * (35 / 100))) 30 250)
  (target, max 20 (round ((target : ℚ) * (60 / 100))))

/-- The length planner as the amended claim states it: the same shape as
`plan_spec` but with Python's truncated double products in place of
exact rounding. -/
def plan_amended (L : ℕ) : ℤ × ℤ :=
  let target : ℤ := min ((L : ℤ) - 1) (clampI (pyInt35 L) 30 250)
  (target, max 20 (pyInt60 target))

/-! ### Chunker (`split_text_into_chunks`, lines 137-188)

The code strips the text, rewrites `"? " → "?\n"`, `"! " → "!\n"`,
`". " → ".\n"`, splits on `"\n"`, skips blank sentences, and greedily
packs sentences into chunks of at most `max_tokens = 500` tokens
(measured by summing the tokenizer's per-sentence token counts in
`current_length`).  The tokenizer is an oracle `tok : List Char → ℕ`
giving each sentence's token count.  Chunks are kept as their sentence
lists; the code emits `" ".join(current_chunk)`. -/

def sentencesOf (t : List Char) : List (List Char) :=
  ((splitOnChar '\n'
      (replaceAll ". ".data ".\n".data
        (replaceAll "! ".data "!\n".data
          (replaceAll "? ".data "?\n".data t)))).filter
    fun s => strTrim s ≠ [])

/-- The greedy packing loop (lines 159-179): state is the current chunk
`cur` (in order) and its running token total `curLen`. -/
def packChunks (tok : List Char → ℕ) (maxT : ℕ) :
    List (List Char) → List (List Char) → ℕ → List (List (List Char))
  | [], cur, _ => if cur = [] then [] else [cur]
  | s :: rest, cur, curLen =>
    if maxT < curLen + tok s ∧ cur ≠ [] then
      cur :: packChunks tok maxT rest [s] (tok s)
    else
      packChunks tok maxT rest (cur ++ [s]) (curLen + tok s)

/-- `split_text_into_chunks` (lines 137-188): raises on blank text and
when no chunk is produced, otherwise returns the chunk list. -/
def split_text_into_chunks (tok : List Char → ℕ) (text : List Char) :
    Except String (List (List (List Char))) :=
  let t := strTrim text
  if t = [] then .error "Empty text provided"
  else
    let cs := packChunks tok 500 (sentencesOf t) [] 0
    if cs = [] then .error "No valid chunks created from input text" else .ok cs

/-! ### `process_chunk` (lines 196-254)

One inference attempt either raises (a `TimeoutError`, a `RuntimeError`,
or some other exception) or returns the pipeline's output: a list of
records whose first element's optional `summary_text` field the code
inspects.  `if not summary or not summary[0].get('summary_text')`
raises `ValueError("Empty summary generated")` exactly when the list is
empty, the field is missing, or the field is the empty string.  The
retry loop (`max_retries = 3`, `retry_delay = 10` doubling) re-raises
the final attempt's error, retries only `TimeoutError`/`RuntimeError`
after sleeping, and re-raises every other error immediately. -/

inductive InferOut
  | timeoutErr
  | runtimeErr (msg : String)
  | otherErr (msg : String)
  | ok (items : List (Option String))
  deriving DecidableEq

inductive PCErr
  | timeout
  | runtime (msg : String)
  | other (msg : String)
  | emptySummary
  deriving DecidableEq

/-- Lines 221-243: the guarded inference call plus the empty-summary
check of one attempt. -/
def attemptResult (infer : ℕ → InferOut) (a : ℕ) : Except PCErr String :=
  match infer a with
  | .timeoutErr => .error .timeout
  | .runtimeErr m => .error (.runtime m)
  | .otherErr m => .error (.other m)
  | .ok [] => .error .emptySummary
  | .ok (none :: _) => .error .emptySummary
  | .ok (some t :: _) => if t = "" then .error .emptySummary else .ok t

/-- `isinstance(e, (TimeoutError, RuntimeError))` (line 247). -/
def retryable : PCErr → Bool
  | .timeout => true
  | .runtime _ => true
  | _ => false

/-- The retry loop of `process_chunk`: `fuel` counts attempts still
allowed (3 at the top call), `attempt` the 0-based index, `delay` the
current `retry_delay`.  Returns the outcome together with the trace of
`time.sleep` delays. -/
def pcLoop (infer : ℕ → InferOut) : ℕ → ℕ → ℕ → Except PCErr String × List ℕ
  | _, _, 0 => (.error (.other "no attempts"), [])
  | attempt, delay, fuel + 1 =>
    match attemptResult infer attempt with
    | .ok t => (.ok t, [])
    | .error e =>
      if fuel = 0 then (.error e, [])
      else if retryable e then
        let p := pcLoop infer (attempt + 1) (2 * delay) fuel
        (p.1, delay :: p.2)
      else (.error e, [])

/-- `process_chunk` (lines 196-254).  The blank-chunk early return
(lines 209-211) is checked inside each attempt in the code, but the
chunk never changes, so it is hoisted; each attempt recomputes the
length target from the tokenizer's count (lines 214-218), which the
inference oracle receives. -/
def process_chunk (tok : List Char → ℕ) (infer : ℕ → ℤ × ℤ → InferOut)
    (chunk : List Char) : Except PCErr String × List ℕ :=
  if strTrim chunk = [] then (.ok "", [])
  else pcLoop (fun a => infer a (calculate_summary_length (tok chunk))) 0 10 3

/-! ### `initialize_summarizer` (lines 51-135)

The global `summarizer` starts as `None`; under `model_lock`, if it is
still `None` the code loads the model with `max_retries = 3` attempts
and `retry_delay = 5` doubling after each sleep; the final attempt's
exception is re-raised (lines 124-125) and propagates out (line 135),
leaving `summarizer` as `None`.  On success `summarizer` is set and
every later call returns at the `is None` guard.  `load a` tells
whether attempt `a` of the model load succeeds. -/

def initLoop (load : ℕ → Bool) : ℕ → ℕ → ℕ → Except String Unit × List ℕ
  | _, _, 0 => (.error "Failed to initialize summarizer", [])
  | attempt, delay, fuel + 1 =>
    if load attempt then (.ok (), [])
    else if fuel = 0 then (.error "Failed to initialize summarizer", [])
    else
      let p := initLoop load (attempt + 1) (2 * delay) fuel
      (p.1, delay :: p.2)

/-- `initialize_summarizer`: takes and returns the global `summarizer`
state (`none` = uninitialized), with the outcome and the sleep trace. -/
def initialize_summarizer (load : ℕ → Bool) (st : Option Unit) :
    Except String Unit × Option Unit × List ℕ :=
  match st with
  | some u => (.ok (), some u, [])
  | none =>
    match initLoop load 0 5 3 with
    | (.ok _, sl) => (.ok (), some (), sl)
    | (.error e, sl) => (.error e, none, sl)

/-! ### Aggregation tail of `summarize_text` (lines 256-302)

Each submitted chunk yields, at the `future.result(timeout=90)` call,
either the string returned by `process_chunk` (collected only when
truthy, line 283), a `TimeoutError`, or another exception with a
message; errors become entries of `chunk_errors` tagged with the chunk
index. -/

inductive ChunkOutcome
  | result (s : String)
  | timeout
  | exn (msg : String)
  deriving DecidableEq

inductive SumResult
  | success (summary : String)
  | failure (error : String)
  deriving DecidableEq

/-- The `summaries` list (lines 280-284): truthy results in chunk order. -/
def summariesOf (outs : List ChunkOutcome) : List String :=
  outs.filterMap fun o =>
    match o with
    | .result s => if s = "" then none else some s
    | _ => none

/-- The `chunk_errors` list (lines 285-292): the loop
`for i, future in enumerate(futures)` appends a tagged message for each
timeout or exception, threading the index `i`. -/
def errorsFrom (i : ℕ) : List ChunkOutcome → List String
  | [] => []
  | .result _ :: rest => errorsFrom (i + 1) rest
  | .timeout :: rest => ("Chunk " ++ toString i ++ " timed out") :: errorsFrom (i + 1) rest
  | .exn m :: rest => ("Chunk " ++ toString i ++ " error: " ++ m) :: errorsFrom (i + 1) rest

def errorsOf (outs : List ChunkOutcome) : List String :=
  errorsFrom 0 outs

/-- Lines 294-302: the final assembly of `summarize_text`. -/
def aggregate (outs : List ChunkOutcome) : SumResult :=
  let summaries := summariesOf outs
  if summaries = [] then
    .failure
      (if errorsOf outs ≠ [] then joinWith "; " (errorsOf outs)
       else "No valid summaries generated")
  else
    let finalSummary := joinWith " " summaries
    if strTrimS finalSummary = "" then .failure "Generated summary is empty"
    else .success finalSummary

/-- `summarize_text` (lines 256-307).  `initErr` is the outcome of the
`initialize_summarizer()` call on line 262 (`some e` = it raised, which
the outer handler turns into a failure); `outcome i` is the scheduler's
result for chunk `i`.  The boolean records whether
`split_text_into_chunks` was invoked. -/
def summarize_text (tok : List Char → ℕ) (initErr : Option String)
    (outcome : ℕ → ChunkOutcome) (text : List Char) : SumResult × Bool :=
  if strTrim text = [] then (.failure "Empty or invalid input text", false)
  else
    match initErr with
    | some e => (.failure e, false)
    | none =>
      let t := strTrim text
      if t.length < 50 then (.failure "Text too short for summarization", false)
      else
        match split_text_into_chunks tok t with
        | .error e => (.failure ("Chunk splitting failed: " ++ e), true)
        | .ok cs => (aggregate ((List.range cs.length).map outcome), true)

/-! ### The `model_lock` discipline (lines 47, 221-237)

Worker threads running `process_chunk` enter the inference call only
inside `with model_lock`.  The transition system below models each
thread's position relative to that critical section: it requests the
lock, acquires it only when free (setting itself as holder and starting
the `summarizer(...)` call), and releases it when the call returns. -/

inductive PC
  | idle
  | waiting
  | inferring
  | finished
  deriving DecidableEq

structure LockState where
  lock : Option ℕ
  pcs : ℕ → PC

def initialLockState : LockState :=
  { lock := none, pcs := fun _ => PC.idle }

inductive LockStep : LockState → LockState → Prop
  | request (s : LockState) (i : ℕ) :
      s.pcs i = PC.idle →
      LockStep s { s with pcs := Function.update s.pcs i PC.waiting }
  | acquire (s : LockState) (i : ℕ) :
      s.pcs i = PC.waiting → s.lock = none →
      LockStep s { lock := some i, pcs := Function.update s.pcs i PC.inferring }
  | release (s : LockState) (i : ℕ) :
      s.pcs i = PC.inferring → s.lock = some i →
      LockStep s { lock := none, pcs := Function.update s.pcs i PC.finished }

inductive LockReachable : LockState → Prop
  | init : LockReachable initialLockState
  | step {s t : LockState} : LockReachable s → LockStep s t → LockReachable t

/-! ### Helper lemmas -/

lemma data_append (s t : String) : (s ++ t).data = s.data ++ t.data := by
  cases s; cases t; rfl

lemma strTrim_eq_nil_iff (l : List Char) :
    strTrim l = [] ↔ ∀ c ∈ l, isSpace c := by
  unfold strTrim
  rw [List.reverse_eq_nil_iff, List.dropWhile_eq_nil_iff]
  constructor
  · intro h c hc
    rcases List.mem_append.mp
        (by rw [List.takeWhile_append_dropWhile]; exact hc :
          c ∈ l.takeWhile isSpace ++ l.dropWhile isSpace) with hm | hm
    · exact List.mem_takeWhile_imp hm
    · exact h c (List.mem_reverse.mpr hm)
  · intro h c hc
    exact h c ((List.dropWhile_sublist isSpace).subset (List.mem_reverse.mp hc))

lemma strTrim_ne_nil_of_mem {l : List Char} {c : Char}
    (hc : c ∈ l) (hs : isSpace c = false) : strTrim l ≠ [] := by
  intro h
  have := (strTrim_eq_nil_iff l).mp h c hc
  simp [hs] at this

lemma exists_nonspace_of_strTrim_ne_nil {l : List Char}
    (h : strTrim l ≠ []) : ∃ c ∈ l, isSpace c = false := by
  by_contra hall
  push_neg at hall
  exact h ((strTrim_eq_nil_iff l).mpr fun c hc => by
    have := hall c hc
    simpa using this)

lemma mem_data_foldl_append (c : Char) :
    ∀ (ls : List String) (acc : String),
      (c ∈ acc.data ∨ ∃ s ∈ ls, c ∈ s.data) →
      c ∈ (ls.foldl (fun a b => a ++ b) acc).data := by
  intro ls
  induction ls with
  | nil =>
    intro acc h
    rcases h with h | ⟨s, hs, _⟩
    · exact h
    · exact absurd hs (List.not_mem_nil s)
  | cons x rest ih =>
    intro acc h
    refine ih (acc ++ x) ?_
    rcases h with h | ⟨s, hs, hcs⟩
    · exact Or.inl (by rw [data_append]; exact List.mem_append_left _ h)
    · rcases List.mem_cons.mp hs with rfl | hs'
      · exact Or.inl (by rw [data_append]; exact List.mem_append_right _ hcs)
      · exact Or.inr ⟨s, hs', hcs⟩

lemma mem_data_joinWith (sep : String) {L : List String} {s : String} {c : Char}
    (hs : s ∈ L) (hc : c ∈ s.data) : c ∈ (joinWith sep L).data := by
  cases L with
  | nil => exact absurd hs (List.not_mem_nil s)
  | cons x rest =>
    show c ∈ (x ++ (rest.map fun r => sep ++ r).foldl (fun a b => a ++ b) "").data
    rw [data_append]
    rcases List.mem_cons.mp hs with rfl | hs'
    · exact List.mem_append_left _ hc
    · refine List.mem_append_right _ (mem_data_foldl_append c _ "" (Or.inr ?_))
      exact ⟨sep ++ s, List.mem_map_of_mem _ hs', by rw [data_append]; exact List.mem_append_right _ hc⟩

set_option maxRecDepth 8000 in
lemma pyNat60_le_self : ∀ t : ℕ, t < 251 → pyNat60 t ≤ t := by decide

/-- Invariant of the greedy packing loop: provided the running chunk is
empty, within budget, or a single sentence, every emitted chunk is
within budget or a single sentence. -/
lemma packChunks_bound (tok : List Char → ℕ) (maxT : ℕ) :
    ∀ (ss cur : List (List Char)) (curLen : ℕ),
      curLen = (cur.map tok).sum →
      (cur = [] ∨ (cur.map tok).sum ≤ maxT ∨ ∃ s, cur = [s]) →
      ∀ c ∈ packChunks tok maxT ss cur curLen,
        (c.map tok).sum ≤ maxT ∨ ∃ s, c = [s] := by
  intro ss
  induction ss with
  | nil =>
    intro cur curLen _ hinv c hc
    by_cases hcur : cur = []
    · simp [packChunks, hcur] at hc
    · simp only [packChunks, if_neg hcur, List.mem_singleton] at hc
      subst hc
      rcases hinv with h | h | h
      · exact absurd h hcur
      · exact Or.inl h
      · exact Or.inr h
  | cons s rest ih =>
    intro cur curLen hlen hinv c hc
    simp only [packChunks] at hc
    split_ifs at hc with hcond
    · rcases List.mem_cons.mp hc with rfl | hc'
      · rcases hinv with h | h | h
        · exact absurd h hcond.2
        · exact Or.inl h
        · exact Or.inr h
      · exact ih [s] (tok s) (by simp) (Or.inr (Or.inr ⟨s, rfl⟩)) c hc'
    · push_neg at hcond
      by_cases hcur : cur = []
      · subst hcur
        exact ih ([] ++ [s]) (curLen + tok s)
          (by simp at hlen; simp [hlen]) (Or.inr (Or.inr ⟨s, by simp⟩)) c hc
      · have hle : curLen + tok s ≤ maxT := le_of_not_lt fun hlt => hcur (hcond hlt)
        refine ih (cur ++ [s]) (curLen + tok s) ?_ (Or.inr (Or.inl ?_)) c hc
        · simp [hlen]
        · simpa [hlen] using hle

/-- Mutual-exclusion invariant of `model_lock`: a thread inside the
inference call is the lock holder. -/
def lockInv (s : LockState) : Prop :=
  ∀ i, s.pcs i = PC.inferring → s.lock = some i

lemma lockInv_step {s t : LockState} (hstep : LockStep s t) (hs : lockInv s) :
    lockInv t := by
  cases hstep with
  | request i hpc =>
    intro j hj
    have hj' : Function.update s.pcs i PC.waiting j = PC.inferring := hj
    show s.lock = some j
    by_cases hij : j = i
    · subst hij
      rw [Function.update_same] at hj'
      exact absurd hj' (by simp)
    · rw [Function.update_noteq hij] at hj'
      exact hs j hj'
  | acquire i hpc hfree =>
    intro j hj
    have hj' : Function.update s.pcs i PC.inferring j = PC.inferring := hj
    show some i = some j
    by_cases hij : j = i
    · subst hij; rfl
    · rw [Function.update_noteq hij] at hj'
      have := (hs j hj').symm.trans hfree
      exact absurd this (by simp)
  | release i hpc hheld =>
    intro j hj
    have hj' : Function.update s.pcs i PC.finished j = PC.inferring := hj
    show (none : Option ℕ) = some j
    by_cases hij : j = i
    · subst hij
      rw [Function.update_same] at hj'
      exact absurd hj' (by simp)
    · rw [Function.update_noteq hij] at hj'
      have := (hs j hj').symm.trans hheld
      exact absurd (Option.some.inj this) hij

lemma lockInv_of_reachable {s : LockState} (h : LockReachable s) : lockInv s := by
  induction h with
  | init =>
    intro i hi
    simp [initialLockState] at hi
  | step _ hstep ih => exact lockInv_step hstep ih

/-! ### Claim C4 -/

/-- Claim C4, counterexample: the claim says the planner computes
`clamp(round(L * 0.35), 30, 250)` capped at `L - 1`, but at chunk token
length 93 the code truncates `93 * 0.35 = 32.55` to 32 while the
claimed rounding gives 33cr. -/
theorem claim4_counterexample :
    calculate_summary_length 93 = (32, 20) ∧ plan_spec 93 = (33, 20) ∧
      calculate_summary_length 93 ≠ plan_spec 93 := by
  have e1 : calculate_summary_length 93 = (32, 20) := by decide
  have e2 : plan_spec 93 = (33, 20) := by
    unfold plan_spec clampI
    norm_num [round_eq]
  exact ⟨e1, e2, by rw [e1, e2]; decide⟩

/-- Claim C4, amended: for every chunk token length `L` the planner
returns `target = clamp(trunc(L ·f 0.35), 30, 250)` capped additionally
at `L - 1`, and `min = max(20, trunc(target ·f 0.6))`, where `·f`
denotes IEEE-754 double multiplication by the nearest double to the
constant and `trunc` truncates toward zero (not `round`); it is a pure
total function with no failure mode. -/
theorem claim4_amended_thm : ∀ L : ℕ, calculate_summary_length L = plan_amended L :=
  fun _ => rfl

/-! ### Claim C5 -/

/-- Claim C5, counterexample: at chunk token length 2 the planner
returns `(target, min) = (1, 20)`, violating `min_length ≤
target_length` (the code's `min(text_length - 1, ...)` cap undercuts
the `max(20, ...)` floor for short chunks). -/
theorem claim5_counterexample :
    calculate_summary_length 2 = (1, 20) ∧
      ¬(calculate_summary_length 2).2 ≤ (calculate_summary_length 2).1 := by
  constructor
  · decide
  · decide

/-- Claim C5, amended: for every chunk token length `L ≥ 21` the pair
`(target_length, min_length)` satisfies `min_length ≤ target_length`,
both are positive, and `target_length < L`.  (For `L ≤ 20` the
invariant `min_length ≤ target_length` fails, and at `L ≤ 1` the target
is not positive.) -/
theorem claim5_amended_thm (L : ℕ) (hL : 21 ≤ L) :
    ∀ t m : ℤ, calculate_summary_length L = (t, m) →
      m ≤ t ∧ 0 < t ∧ 0 < m ∧ t < (L : ℤ) := by
  intro t m heq
  have hL' : (21 : ℤ) ≤ (L : ℤ) := by exact_mod_cast hL
  simp only [calculate_summary_length, Prod.mk.injEq] at heq
  obtain ⟨ht, hm⟩ := heq
  rw [ht] at hm
  have hc30 : (30 : ℤ) ≤ max 30 (min 250 (pyInt35 L : ℤ)) := le_max_left _ _
  have hc250 : max 30 (min 250 (pyInt35 L : ℤ)) ≤ 250 :=
    max_le (by norm_num) (min_le_left _ _)
  have ht20 : (20 : ℤ) ≤ t := by rw [← ht]; exact le_min (by omega) (by omega)
  have ht250 : t ≤ 250 := by rw [← ht]; exact le_trans (min_le_right _ _) hc250
  have htL : t ≤ (L : ℤ) - 1 := by rw [← ht]; exact min_le_left _ _
  have hp : pyInt60 t ≤ t := by
    rw [pyInt60, if_pos (by omega : (0 : ℤ) ≤ t)]
    have hlt : t.toNat < 251 := by omega
    calc (pyNat60 t.toNat : ℤ) ≤ (t.toNat : ℤ) := by
          exact_mod_cast pyNat60_le_self t.toNat hlt
      _ = t := Int.toNat_of_nonneg (by omega)
  have hmle : m ≤ t := by rw [← hm]; exact max_le ht20 hp
  have hmpos : 0 < m := by rw [← hm]; omega
  exact ⟨hmle, by omega, hmpos, by omega⟩

/-- Claim C5, witness: the amended invariants at `L = 100`
(where the planner yields `(35, 21)`). -/
theorem claim5_witness :
    21 ≤ 100 ∧ calculate_summary_length 100 = (35, 21) ∧
      ((35 : ℤ) ≥ 21 ∧ (0 : ℤ) < 35 ∧ (0 : ℤ) < 21 ∧ (35 : ℤ) < 100) := by
  refine ⟨by decide, by decide, ?_⟩
  have h := claim5_amended_thm 100 (by decide) 35 21 (by decide)
  exact ⟨h.1, h.2.1, h.2.2.1, h.2.2.2⟩

/-! ### Claim C7 -/

/-- Claim C7: for every input text that survives validation (non-blank
after stripping) but whose stripped length is below 50, `summarize_text`
returns the too-short failure and never invokes the chunker (the result
is the same for every tokenizer and every chunk-outcome oracle, and the
chunker-invoked flag is `false`). -/
theorem claim7_thm (tok : List Char → ℕ) (outcome : ℕ → ChunkOutcome)
    (text : List Char) (hne : strTrim text ≠ [])
    (hshort : (strTrim text).length < 50) :
    summarize_text tok none outcome text =
      (SumResult.failure "Text too short for summarization", false) := by
  simp [summarize_text, hne, hshort]

/-- Claim C7, witness: a 40-character input yields the too-short
failure without chunking. -/
theorem claim7_witness :
    strTrim "aaaaaaaaaaaaaaaaaaaaaaaaaaaaaaaaaaaaaaaa".data ≠ [] ∧
      (strTrim "aaaaaaaaaaaaaaaaaaaaaaaaaaaaaaaaaaaaaaaa".data).length < 50 ∧
      summarize_text List.length none (fun _ => ChunkOutcome.result "r")
          "aaaaaaaaaaaaaaaaaaaaaaaaaaaaaaaaaaaaaaaa".data =
        (SumResult.failure "Text too short for summarization", false) :=
  ⟨by decide, by decide, claim7_thm _ _ _ (by decide) (by decide)⟩

/-! ### Claim C1 -/

/-- A permanently failed chunk outcome (`Failed`/`Timeout`). -/
def isFailedOutcome : ChunkOutcome → Bool
  | .timeout => true
  | .exn _ => true
  | .result _ => false

/-- Claim C1, counterexample: with 2 permanently failed chunks (the
claimed default failure threshold) and one successful chunk, the code
returns the partial success, not `Failure("too many chunks failed")` —
there is no failure-threshold check in `summarize_text`. -/
theorem claim1_counterexample :
    aggregate [ChunkOutcome.exn "inference failed",
        ChunkOutcome.exn "inference failed", ChunkOutcome.result "ok"] =
      SumResult.success "ok" := by
  rfl

/-- Claim C1, amended: the overall result is a `Failure` (joining all
chunk error messages) only when every chunk outcome permanently failed;
a single chunk whose summary is truthy and not whitespace-only forces a
`Success` carrying (possibly partial) output, regardless of how many
sibling chunks failed.  No failure threshold exists. -/
theorem claim1_amended_thm (outs : List ChunkOutcome) :
    (outs ≠ [] → (∀ o ∈ outs, isFailedOutcome o = true) →
        aggregate outs = SumResult.failure (joinWith "; " (errorsOf outs)))
  ∧ (∀ s, ChunkOutcome.result s ∈ outs → strTrimS s ≠ "" →
        ∃ u, aggregate outs = SumResult.success u) := by
  constructor
  · intro hne hall
    have hs : summariesOf outs = [] := by
      rw [summariesOf, List.filterMap_eq_nil_iff]
      intro o ho
      cases o with
      | result s => exact absurd (hall _ ho) (by simp [isFailedOutcome])
      | timeout => rfl
      | exn m => rfl
    have he : errorsOf outs ≠ [] := by
      cases outs with
      | nil => exact absurd rfl hne
      | cons o rest =>
        cases o with
        | result s =>
          exact absurd (hall _ (List.mem_cons_self _ _)) (by simp [isFailedOutcome])
        | timeout => simp [errorsOf, errorsFrom]
        | exn m => simp [errorsOf, errorsFrom]
    simp [aggregate, hs, he]
  · intro s hmem hts
    have hsne : s ≠ "" := fun h => hts (by rw [h]; rfl)
    have hmem' : s ∈ summariesOf outs := by
      rw [summariesOf]
      exact List.mem_filterMap.mpr ⟨ChunkOutcome.result s, hmem, by simp [hsne]⟩
    have hnil : summariesOf outs ≠ [] := List.ne_nil_of_mem hmem'
    have hts' : strTrim s.data ≠ [] := by
      intro h
      exact hts (show strTrimS s = "" by unfold strTrimS; rw [h])
    obtain ⟨c, hcmem, hcns⟩ := exists_nonspace_of_strTrim_ne_nil hts'
    have hcjoin : c ∈ (joinWith " " (summariesOf outs)).data :=
      mem_data_joinWith _ hmem' hcmem
    have hjne : strTrimS (joinWith " " (summariesOf outs)) ≠ "" := by
      intro h
      exact strTrim_ne_nil_of_mem hcjoin hcns (congrArg String.data h)
    exact ⟨joinWith " " (summariesOf outs), by simp [aggregate, hnil, hjne]⟩

/-- Claim C1, witness: when both chunks of a two-chunk request fail
permanently, the result is the failure joining both tagged errors. -/
theorem claim1_witness :
    ([ChunkOutcome.timeout, ChunkOutcome.exn "boom"] ≠ ([] : List ChunkOutcome)) ∧
      (∀ o ∈ [ChunkOutcome.timeout, ChunkOutcome.exn "boom"], isFailedOutcome o = true) ∧
      aggregate [ChunkOutcome.timeout, ChunkOutcome.exn "boom"] =
        SumResult.failure
          (joinWith "; " (errorsOf [ChunkOutcome.timeout, ChunkOutcome.exn "boom"])) :=
  ⟨by decide, by decide, (claim1_amended_thm _).1 (by decide) (by decide)⟩

/-! ### Claim C8 -/

/-- Claim C8, counterexample: when every chunk is skipped (a blank
chunk's empty summary), the joined result is empty, but the code
returns `Failure("No valid summaries generated")` — not the claimed
`Failure("generated summary is empty")`, which the code reserves for a
whitespace-only nonempty join. -/
theorem claim8_counterexample :
    aggregate [ChunkOutcome.result ""] =
        SumResult.failure "No valid summaries generated" ∧
      aggregate [ChunkOutcome.result ""] ≠
        SumResult.failure "Generated summary is empty" := by
  constructor
  · rfl
  · decide

/-- Claim C8, amended: aggregation joins the truthy `Success` texts
(skipping skipped/empty ones) with single-space separation in original
chunk order; if at least one text is included and the join is
whitespace-only the result is `Failure("Generated summary is empty")`,
if the join is non-whitespace it is `Success(join)`, and if no text is
included at all (and no chunk errored) it is
`Failure("No valid summaries generated")`. -/
theorem claim8_amended_thm (outs : List ChunkOutcome) :
    (summariesOf outs ≠ [] → strTrimS (joinWith " " (summariesOf outs)) ≠ "" →
        aggregate outs = SumResult.success (joinWith " " (summariesOf outs)))
  ∧ (summariesOf outs ≠ [] → strTrimS (joinWith " " (summariesOf outs)) = "" →
        aggregate outs = SumResult.failure "Generated summary is empty")
  ∧ (summariesOf outs = [] → errorsOf outs = [] →
        aggregate outs = SumResult.failure "No valid summaries generated") := by
  refine ⟨fun h1 h2 => ?_, fun h1 h2 => ?_, fun h1 h2 => ?_⟩ <;>
    simp [aggregate, h1, h2]

/-- Claim C8, witness: two truthy summaries are joined with a single
space, in chunk order, into a success. -/
theorem claim8_witness :
    summariesOf [ChunkOutcome.result "alpha", ChunkOutcome.result "beta"] ≠ [] ∧
      strTrimS (joinWith " "
          (summariesOf [ChunkOutcome.result "alpha", ChunkOutcome.result "beta"])) ≠ "" ∧
      aggregate [ChunkOutcome.result "alpha", ChunkOutcome.result "beta"] =
        SumResult.success (joinWith " "
          (summariesOf [ChunkOutcome.result "alpha", ChunkOutcome.result "beta"])) :=
  ⟨by decide, by decide, (claim8_amended_thm _).1 (by decide) (by decide)⟩

/-! ### Claim C2 -/

/-- Claim C2, counterexample: an empty-summary failure on the first
attempt is NOT retried — `process_chunk` raises the `ValueError`
immediately (it is not a `TimeoutError`/`RuntimeError`), with no
backoff sleep, even though the remaining attempts would have
succeeded. -/
theorem claim2_counterexample :
    process_chunk List.length
        (fun a _ => if a = 0 then InferOut.ok [some ""] else InferOut.ok [some "good"])
        "x".data = (Except.error PCErr.emptySummary, []) ∧
      ((Except.error PCErr.emptySummary : Except PCErr String), ([] : List ℕ)) ≠
        ((Except.ok "good" : Except PCErr String), [10]) := by
  constructor
  · rfl
  · simp

/-- Claim C2, amended: only `TimeoutError`/`RuntimeError` attempt
failures are retried, after sleeping `10 * 2^(attempt-1)` (delays 10
then 20), up to 3 attempts total; any other per-attempt error
(including the empty-summary `ValueError`) is raised immediately
without retry or sleep, and the final attempt's error is raised out of
`process_chunk` (the scheduler records it as the chunk's error). -/
theorem claim2_amended_thm (tok : List Char → ℕ) (infer : ℕ → ℤ × ℤ → InferOut)
    (chunk : List Char) (hb : strTrim chunk ≠ []) :
    (∀ t, attemptResult (fun a => infer a (calculate_summary_length (tok chunk))) 0 = .ok t →
        process_chunk tok infer chunk = (.ok t, []))
  ∧ (∀ e, attemptResult (fun a => infer a (calculate_summary_length (tok chunk))) 0 = .error e →
        retryable e = false → process_chunk tok infer chunk = (.error e, []))
  ∧ (∀ e0 t, attemptResult (fun a => infer a (calculate_summary_length (tok chunk))) 0 = .error e0 →
        retryable e0 = true →
        attemptResult (fun a => infer a (calculate_summary_length (tok chunk))) 1 = .ok t →
        process_chunk tok infer chunk = (.ok t, [10]))
  ∧ (∀ e0 e1, attemptResult (fun a => infer a (calculate_summary_length (tok chunk))) 0 = .error e0 →
        retryable e0 = true →
        attemptResult (fun a => infer a (calculate_summary_length (tok chunk))) 1 = .error e1 →
        retryable e1 = false → process_chunk tok infer chunk = (.error e1, [10]))
  ∧ (∀ e0 e1 t, attemptResult (fun a => infer a (calculate_summary_length (tok chunk))) 0 = .error e0 →
        retryable e0 = true →
        attemptResult (fun a => infer a (calculate_summary_length (tok chunk))) 1 = .error e1 →
        retryable e1 = true →
        attemptResult (fun a => infer a (calculate_summary_length (tok chunk))) 2 = .ok t →
        process_chunk tok infer chunk = (.ok t, [10, 20]))
  ∧ (∀ e0 e1 e2, attemptResult (fun a => infer a (calculate_summary_length (tok chunk))) 0 = .error e0 →
        retryable e0 = true →
        attemptResult (fun a => infer a (calculate_summary_length (tok chunk))) 1 = .error e1 →
        retryable e1 = true →
        attemptResult (fun a => infer a (calculate_summary_length (tok chunk))) 2 = .error e2 →
        process_chunk tok infer chunk = (.error e2, [10, 20])) := by
  refine ⟨?_, ?_, ?_, ?_, ?_, ?_⟩
  · intro t h0
    rw [process_chunk, if_neg hb]
    show pcLoop _ 0 10 (2 + 1) = _
    rw [pcLoop, h0]
  · intro e h0 hr
    rw [process_chunk, if_neg hb]
    show pcLoop _ 0 10 (2 + 1) = _
    rw [pcLoop, h0]
    simp [hr]
  · intro e0 t h0 hr0 h1
    rw [process_chunk, if_neg hb]
    show pcLoop _ 0 10 (2 + 1) = _
    rw [pcLoop, h0]
    simp only [hr0, if_true]
    norm_num
    show (pcLoop _ 1 (2 * 10) (1 + 1)).1 = _ ∧ (pcLoop _ 1 (2 * 10) (1 + 1)).2 = _
    rw [pcLoop, h1]
    exact ⟨rfl, rfl⟩
  · intro e0 e1 h0 hr0 h1 hr1
    rw [process_chunk, if_neg hb]
    show pcLoop _ 0 10 (2 + 1) = _
    rw [pcLoop, h0]
    simp only [hr0, if_true]
    norm_num
    show (pcLoop _ 1 (2 * 10) (1 + 1)).1 = _ ∧ (pcLoop _ 1 (2 * 10) (1 + 1)).2 = _
    rw [pcLoop, h1]
    simp [hr1]
  · intro e0 e1 t h0 hr0 h1 hr1 h2
    rw [process_chunk, if_neg hb]
    show pcLoop _ 0 10 (2 + 1) = _
    rw [pcLoop, h0]
    simp only [hr0, if_true]
    norm_num
    show (pcLoop _ 1 (2 * 10) (1 + 1)).1 = _ ∧ (pcLoop _ 1 (2 * 10) (1 + 1)).2 = _
    rw [pcLoop, h1]
    simp only [hr1, if_true]
    norm_num
    show (pcLoop _ 2 (2 * (2 * 10)) (0 + 1)).1 = _ ∧ (pcLoop _ 2 (2 * (2 * 10)) (0 + 1)).2 = _
    rw [pcLoop, h2]
    exact ⟨rfl, rfl⟩
  · intro e0 e1 e2 h0 hr0 h1 hr1 h2
    rw [process_chunk, if_neg hb]
    show pcLoop _ 0 10 (2 + 1) = _
    rw [pcLoop, h0]
    simp only [hr0, if_true]
    norm_num
    show (pcLoop _ 1 (2 * 10) (1 + 1)).1 = _ ∧ (pcLoop _ 1 (2 * 10) (1 + 1)).2 = _
    rw [pcLoop, h1]
    simp only [hr1, if_true]
    norm_num
    show (pcLoop _ 2 (2 * (2 * 10)) (0 + 1)).1 = _ ∧ (pcLoop _ 2 (2 * (2 * 10)) (0 + 1)).2 = _
    rw [pcLoop, h2]
    exact ⟨rfl, rfl⟩

/-- Claim C2, witness: a timeout on the first attempt sleeps 10 units
and the retry succeeds. -/
theorem claim2_witness :
    process_chunk List.length
        (fun a _ => if a = 0 then InferOut.timeoutErr else InferOut.ok [some "good"])
        "x".data = (Except.ok "good", [10]) :=
  (claim2_amended_thm List.length
      (fun a _ => if a = 0 then InferOut.timeoutErr else InferOut.ok [some "good"])
      "x".data (by decide)).2.2.1 PCErr.timeout "good" rfl rfl rfl

/-! ### Claim C3 -/

/-- Claim C3, counterexample: after initialization exhausts its retry
budget (sleeps 5 then 10), the global state is still uninitialized
(`none`), and a subsequent call re-runs the whole setup and succeeds —
the resource does not enter a permanent `Failed` state and later
acquisitions are not refused. -/
theorem claim3_counterexample :
    initialize_summarizer (fun _ => false) none =
        (Except.error "Failed to initialize summarizer", none, [5, 10]) ∧
      initialize_summarizer (fun _ => true)
          (initialize_summarizer (fun _ => false) none).2.1 =
        (Except.ok (), some (), []) :=
  ⟨rfl, rfl⟩

/-- Claim C3, amended: if every load attempt fails, initialization
retries with base delay 5 doubling (sleeps 5 then 10) and then raises,
leaving the resource uninitialized; a later initialization call re-runs
setup (and succeeds when loading does), and once the resource is
initialized subsequent calls return it without re-running setup. -/
theorem claim3_amended_thm (load load2 : ℕ → Bool)
    (hfail : ∀ k, k < 3 → load k = false) (hok : load2 0 = true) :
    initialize_summarizer load none =
        (Except.error "Failed to initialize summarizer", none, [5, 10])
  ∧ initialize_summarizer load2 none = (Except.ok (), some (), [])
  ∧ ∀ u : Unit, initialize_summarizer load (some u) = (Except.ok (), some u, []) := by
  refine ⟨?_, ?_, fun u => rfl⟩
  · have h0 := hfail 0 (by norm_num)
    have h1 := hfail 1 (by norm_num)
    have h2 := hfail 2 (by norm_num)
    have hl : initLoop load 0 5 3 =
        (Except.error "Failed to initialize summarizer", [5, 10]) := by
      show initLoop load 0 5 (2 + 1) = _
      rw [initLoop, h0]
      norm_num
      show (initLoop load 1 (2 * 5) (1 + 1)).1 = _ ∧ (initLoop load 1 (2 * 5) (1 + 1)).2 = _
      rw [initLoop, h1]
      norm_num
      show (initLoop load 2 (2 * (2 * 5)) (0 + 1)).1 = _ ∧ (initLoop load 2 (2 * (2 * 5)) (0 + 1)).2 = _
      rw [initLoop, h2]
      exact ⟨rfl, rfl⟩
    simp [initialize_summarizer, hl]
  · have hl : initLoop load2 0 5 3 = (Except.ok (), []) := by
      show initLoop load2 0 5 (2 + 1) = _
      rw [initLoop, hok]
      simp
    simp [initialize_summarizer, hl]

/-- Claim C3, witness: the amended behaviour at the all-failing and
always-succeeding load oracles. -/
theorem claim3_witness :
    initialize_summarizer (fun _ => false) none =
        (Except.error "Failed to initialize summarizer", none, [5, 10])
  ∧ initialize_summarizer (fun _ => true) none = (Except.ok (), some (), [])
  ∧ ∀ u : Unit, initialize_summarizer (fun _ => false) (some u) =
      (Except.ok (), some u, []) :=
  claim3_amended_thm (fun _ => false) (fun _ => true) (fun _ _ => rfl) rfl

/-! ### Claim C10 -/

/-- Claim C10: a whitespace-only but non-empty `summary_text` is
accepted by `process_chunk` as the chunk's success; the empty-summary
error is raised only for a missing or empty-string summary; and a
whitespace-only summary surfaces only as the aggregate-level
`Failure("Generated summary is empty")`. -/
theorem claim10_thm :
    (∀ (tok : List Char → ℕ) (infer : ℕ → ℤ × ℤ → InferOut) (chunk : List Char) (s : String),
        strTrim chunk ≠ [] →
        infer 0 (calculate_summary_length (tok chunk)) = InferOut.ok [some s] →
        (s ≠ "" → process_chunk tok infer chunk = (Except.ok s, []))
      ∧ (s = "" → process_chunk tok infer chunk = (Except.error PCErr.emptySummary, [])))
  ∧ aggregate [ChunkOutcome.result " "] = SumResult.failure "Generated summary is empty" := by
  constructor
  · intro tok infer chunk s hb h0
    constructor
    · intro hs
      have ha : attemptResult (fun a => infer a (calculate_summary_length (tok chunk))) 0 =
          .ok s := by
        simp [attemptResult, h0, hs]
      rw [process_chunk, if_neg hb]
      show pcLoop _ 0 10 (2 + 1) = _
      rw [pcLoop, ha]
    · intro hs
      subst hs
      have ha : attemptResult (fun a => infer a (calculate_summary_length (tok chunk))) 0 =
          .error PCErr.emptySummary := by
        simp [attemptResult, h0]
      rw [process_chunk, if_neg hb]
      show pcLoop _ 0 10 (2 + 1) = _
      rw [pcLoop, ha]
      simp [retryable]
  · rfl

/-- Claim C10, witness: a summary consisting of a single space is
returned as the chunk's success. -/
theorem claim10_witness :
    process_chunk List.length (fun _ _ => InferOut.ok [some " "]) "x".data =
      (Except.ok " ", []) :=
  (claim10_thm.1 List.length (fun _ _ => InferOut.ok [some " "]) "x".data " "
      (by decide) rfl).1 (by decide)

/-! ### Claim C6 -/

/-- Claim C6: for every input text and every tokenizer, each chunk
produced by the chunker has token length (as measured by the chunker:
the sum of its sentences' token counts, the code's `current_length`) at
most 500 (`maxTokensPerChunk`), unless it is a single sentence whose
token count alone exceeds the budget; an oversized sentence becomes its
own chunk rather than being dropped or truncated. -/
theorem claim6_thm (tok : List Char → ℕ) (text : List Char)
    (cs : List (List (List Char))) (c : List (List Char))
    (hok : split_text_into_chunks tok text = Except.ok cs) (hc : c ∈ cs) :
    (c.map tok).sum ≤ 500 ∨ ∃ s, c = [s] ∧ 500 < tok s := by
  have hcs : cs = packChunks tok 500 (sentencesOf (strTrim text)) [] 0 := by
    simp only [split_text_into_chunks] at hok
    split_ifs at hok with h1 h2
    injection hok with h
    exact h.symm
  subst hcs
  have hmain := packChunks_bound tok 500 (sentencesOf (strTrim text)) [] 0
    rfl (Or.inl rfl) c hc
  rcases hmain with h | ⟨s, rfl⟩
  · exact Or.inl h
  · by_cases hs : tok s ≤ 500
    · exact Or.inl (by simpa using hs)
    · exact Or.inr ⟨s, rfl, by omega⟩

/-- Claim C6, witness: two short sentences are packed into a single
chunk within the budget. -/
theorem claim6_witness :
    split_text_into_chunks List.length "ab. cd.".data =
        Except.ok [["ab.".data, "cd.".data]] ∧
      ["ab.".data, "cd.".data] ∈ [["ab.".data, "cd.".data]] ∧
      ((["ab.".data, "cd.".data].map List.length).sum ≤ 500 ∨
        ∃ s, ["ab.".data, "cd.".data] = [s] ∧ 500 < List.length s) :=
  ⟨rfl, by decide, claim6_thm List.length "ab. cd.".data _ _ rfl (by decide)⟩

/-! ### Claim C9 -/

/-- Claim C9: at any reachable instant of the `model_lock` transition
system, at most one thread is inside the inference call — two threads
observed at `inferring` are the same thread, however many chunk tasks
are scheduled. -/
theorem claim9_thm (s : LockState) (hs : LockReachable s) (i j : ℕ)
    (hi : s.pcs i = PC.inferring) (hj : s.pcs j = PC.inferring) : i = j := by
  have hinv := lockInv_of_reachable hs
  have h1 := hinv i hi
  have h2 := hinv j hj
  rw [h1] at h2
  exact Option.some.inj h2

/-- A reachable state in which thread 0 holds `model_lock` and is
inside the inference call. -/
def lockDemoState : LockState :=
  { lock := some 0,
    pcs := Function.update (Function.update (fun _ => PC.idle) 0 PC.waiting) 0
        PC.inferring }

/-- Claim C9, witness: the mutual-exclusion theorem applied at a
concrete reachable state with a thread mid-inference. -/
theorem claim9_witness :
    LockReachable lockDemoState ∧ lockDemoState.pcs 0 = PC.inferring ∧ (0 : ℕ) = 0 := by
  have h1 : LockStep initialLockState
      { lock := none, pcs := Function.update (fun _ => PC.idle) 0 PC.waiting } :=
    LockStep.request _ 0 rfl
  have h2 : LockStep
      { lock := none, pcs := Function.update (fun _ => PC.idle) 0 PC.waiting }
      lockDemoState :=
    LockStep.acquire _ 0 (by simp) rfl
  have hreach : LockReachable lockDemoState :=
    LockReachable.step (LockReachable.step LockReachable.init h1) h2
  have hpc : lockDemoState.pcs 0 = PC.inferring := by
    simp [lockDemoState]
  exact ⟨hreach, hpc, claim9_thm lockDemoState hreach 0 0 hpc hpc⟩

end Summarizer
